import Mathlib

/-!
Shallow embedding of the geolocation service of `common-lib`
(`src/geolocation.rs`) together with the identifier helpers of
`src/src/shared_models.rs`, and proofs of the specification claims about
them.

Modelling conventions:

* Machine integers (`u64`, `usize`, `u16`) are `Nat`.
* `f64` coordinates are carried as `Rat`; no claim computes with them,
  they are only stored and passed through.
* `std::time::Instant` is a monotonic clock modelled as `Nat` (the current
  instant is the explicit parameter `now`); `Duration::from_secs` and
  `Instant::elapsed`/`duration_since` become `Nat` values and truncated
  subtraction (`duration_since` saturates at zero exactly as the Rust
  library does).
* The `HashMap<String, CacheEntry>` cache is an association list with
  pairwise-distinct keys (the hash-map representation invariant);
  `HashMap::insert` replaces the entry for an existing key.
* Network calls are modelled by an oracle value `HttpOutcome` supplied by
  the environment: either a transport-level failure, or a response with an
  HTTP status code and the result of parsing the body into the expected
  schema (`Except` of the serde error message and the parsed value).
* `ip_address.trim().is_empty()` holds exactly when every character of the
  string is whitespace, so the validation condition is embedded directly
  as an all-whitespace test (this avoids `String.trim`, which does not
  reduce in the kernel).
* Rust's `sort_by_key` is embedded as `List.mergeSort` on the collected
  `(key, timestamp)` pairs; tie-breaking between equal timestamps is
  unspecified in the source (hash-map iteration order), and every theorem
  that depends on the sort assumes pairwise-distinct timestamps.
-/

/-- The `ApiError` from `src/error.rs`, restricted to the two variants the
geolocation module constructs (`InternalServerError`, `BadRequest`). -/
inductive ApiError where
  | InternalServerError (message : String)
  | BadRequest (message : String)
deriving DecidableEq, Repr

/-- The `LocationInfo` from `src/geolocation.rs` (lines 13-22). -/
structure LocationInfo where
  country_code : String
  country_name : String
  city : Option String
  region : Option String
  latitude : Option Rat
  longitude : Option Rat
  timezone : Option String
deriving DecidableEq, Repr

/-- The `FallbackApiResponse` (ip-api.com schema) from `src/geolocation.rs`
(lines 25-51). -/
structure FallbackApiResponse where
  status : String
  country : String
  country_code : String
  region : String
  region_name : String
  city : String
  zip : String
  lat : Rat
  lon : Rat
  timezone : String
  isp : String
  org : String
  as_name : String
  query : String
  message : Option String
deriving DecidableEq, Repr

/-- The `MaxMindCountry` (lines 91-95); the `names` localisation map is an
association list standing for the `HashMap<String, String>`. -/
structure MaxMindCountry where
  iso_code : String
  names : List (String × String)
deriving DecidableEq, Repr

/-- The `MaxMindCity` (lines 97-100). -/
structure MaxMindCity where
  names : List (String × String)
deriving DecidableEq, Repr

/-- The `MaxMindLocation` (lines 102-107). -/
structure MaxMindLocation where
  latitude : Option Rat
  longitude : Option Rat
  time_zone : Option String
deriving DecidableEq, Repr

/-- The `MaxMindSubdivision` (lines 109-112). -/
structure MaxMindSubdivision where
  names : List (String × String)
deriving DecidableEq, Repr

/-- The `MaxMindResponse` (lines 83-89). -/
structure MaxMindResponse where
  country : MaxMindCountry
  city : Option MaxMindCity
  location : Option MaxMindLocation
  subdivisions : Option (List MaxMindSubdivision)
deriving DecidableEq, Repr

/-- The `HashMap::get(k).cloned()` on a localisation map. -/
def mapGet (names : List (String × String)) (k : String) : Option String :=
  (names.find? (fun p => p.1 == k)).map (fun p => p.2)

/-- The `GeolocationConfig` from `src/geolocation.rs` (lines 61-68). -/
structure GeolocationConfig where
  api_key : String
  service_url : String
  timeout_seconds : Nat
  cache_ttl_seconds : Nat
  max_cache_entries : Nat
deriving DecidableEq, Repr

/-- The `Default` impl for `GeolocationConfig` (lines 70-80). -/
def GeolocationConfig.default : GeolocationConfig :=
  { api_key := ""
    service_url := "https://api.maxmind.com/geoip/v2.1/city"
    timeout_seconds := 5
    cache_ttl_seconds := 3600
    max_cache_entries := 10000 }

/-- The `CacheEntry` (lines 54-58); `timestamp` is the monotonic instant at
which the entry was inserted. -/
structure CacheEntry where
  location : LocationInfo
  timestamp : Nat
deriving DecidableEq, Repr

/-- The service cache: `HashMap<String, CacheEntry>` as an association
list with pairwise-distinct keys. -/
abbrev Cache := List (String × CacheEntry)

/-- Outcome of one HTTP call as seen by the service: a transport error
(`reqwest` error on `send()`), or a response carrying its status code and
the result of deserialising its body into `β` (`Except` of the serde
error message). -/
inductive HttpOutcome (β : Type) where
  | transportError (message : String)
  | response (status : Nat) (body : Except String β)

/-- The `reqwest::StatusCode::is_success()`: status in `200..=299`. -/
def isSuccessStatus (status : Nat) : Bool :=
  200 ≤ status && status < 300

/-- The `ip_address.trim().is_empty()` (line 143): true exactly when every
character of the string is whitespace. -/
def trimIsEmpty (s : String) : Bool :=
  s.toList.all Char.isWhitespace

/-- The `GeolocationService::default_location` (lines 498-508). -/
def default_location : LocationInfo :=
  { country_code := "US"
    country_name := "United States"
    city := none
    region := none
    latitude := none
    longitude := none
    timezone := none }

/-- The `GeolocationService::convert_maxmind_response` (lines 467-495). -/
def convert_maxmind_response (response : MaxMindResponse) : LocationInfo :=
  let country_code := response.country.iso_code
  let country_name := (mapGet response.country.names "en").getD country_code
  let city := response.city.bind (fun c => mapGet c.names "en")
  let region :=
    (response.subdivisions.bind (fun subdivisions => subdivisions.head?)).bind
      (fun subdivision => mapGet subdivision.names "en")
  let llt :=
    (response.location.map (fun loc => (loc.latitude, loc.longitude, loc.time_zone))).getD
      (none, none, none)
  { country_code := country_code
    country_name := country_name
    city := city
    region := region
    latitude := llt.1
    longitude := llt.2.1
    timezone := llt.2.2 }

/-- The `GeolocationService::fetch_from_maxmind` (lines 286-379), as a function
of the HTTP outcome of the single request it issues. -/
def fetch_from_maxmind (_config : GeolocationConfig)
    (resp : HttpOutcome MaxMindResponse) : Except ApiError LocationInfo :=
  match resp with
  | .transportError e =>
      .error (.InternalServerError ("Geolocation API request failed: " ++ e))
  | .response status body =>
      if !isSuccessStatus status then
        if status == 401 then
          .error (.InternalServerError "Geolocation service authentication failed")
        else if status == 404 then
          .ok default_location
        else if status == 429 then
          .error (.InternalServerError "Geolocation service rate limited")
        else
          .error (.InternalServerError ("Geolocation service error: " ++ toString status))
      else
        match body with
        | .error e =>
            .error (.InternalServerError ("Failed to parse geolocation response: " ++ e))
        | .ok maxmind_response => .ok (convert_maxmind_response maxmind_response)

/-- The `GeolocationService::fetch_from_fallback_service` (lines 382-464), as a
function of the HTTP outcome of the single request it issues. -/
def fetch_from_fallback_service (_config : GeolocationConfig)
    (resp : HttpOutcome FallbackApiResponse) : Except ApiError LocationInfo :=
  match resp with
  | .transportError e =>
      .error (.InternalServerError ("Fallback geolocation API request failed: " ++ e))
  | .response status body =>
      if !isSuccessStatus status then
        .ok default_location
      else
        match body with
        | .error e =>
            .error (.InternalServerError
              ("Failed to parse fallback geolocation response: " ++ e))
        | .ok fallback_response =>
            if fallback_response.status != "success" then
              .ok default_location
            else
              .ok { country_code := fallback_response.country_code
                    country_name := fallback_response.country
                    city := some fallback_response.city
                    region := some fallback_response.region_name
                    latitude := some fallback_response.lat
                    longitude := some fallback_response.lon
                    timezone := some fallback_response.timezone }

/-- The guard of lines 261-265: MaxMind is attempted only when `api_key`
is non-empty and is neither recognised placeholder. -/
def maxmindKeyConfigured (config : GeolocationConfig) : Bool :=
  config.api_key != "" &&
  config.api_key != "demo_key" &&
  config.api_key != "your_maxmind_api_key"

/-- Result of `fetch_from_api` instrumented with which provider clients
were actually invoked (each call site of the embedding records itself). -/
structure FetchTrace where
  primaryCalled : Bool
  fallbackCalled : Bool
  result : Except ApiError LocationInfo

/-- The `GeolocationService::fetch_from_api` (lines 255-283): try MaxMind only
when the key is configured, swallow its error and fall through to the
fallback service.  The oracle `p` (resp. `f`) is the HTTP outcome the
primary (resp. fallback) call would observe. -/
def fetch_from_api (config : GeolocationConfig)
    (p : HttpOutcome MaxMindResponse) (f : HttpOutcome FallbackApiResponse) :
    FetchTrace :=
  if maxmindKeyConfigured config then
    match fetch_from_maxmind config p with
    | .ok location => ⟨true, false, .ok location⟩
    | .error _ => ⟨true, true, fetch_from_fallback_service config f⟩
  else
    ⟨false, true, fetch_from_fallback_service config f⟩

/-- The `GeolocationService::get_from_cache` (lines 206-219): a hit only when
an entry exists and its age is strictly below the TTL.  Takes the cache
by value and returns only the optional record: the source holds a read
lock and never mutates. -/
def get_from_cache (config : GeolocationConfig) (cache : Cache) (now : Nat)
    (ip_address : String) : Option LocationInfo :=
  match cache.find? (fun p => p.1 == ip_address) with
  | some (_, entry) =>
      if now - entry.timestamp < config.cache_ttl_seconds then
        some entry.location
      else
        none
  | none => none

/-- The `HashMap::insert` on the association-list cache: replaces any existing
entry for the key. -/
def cacheInsert (cache : Cache) (ip_address : String) (entry : CacheEntry) : Cache :=
  (ip_address, entry) :: cache.filter (fun p => p.1 != ip_address)

/-- The retain sweep of `cache_location` (line 230): keep exactly the
entries whose age is strictly below the TTL. -/
def evictExpired (config : GeolocationConfig) (now : Nat) (cache : Cache) : Cache :=
  cache.filter (fun p => decide (now - p.2.timestamp < config.cache_ttl_seconds))

/-- The oldest-first removal of `cache_location` (lines 233-245): collect
the `(key, timestamp)` pairs, sort them by timestamp, and remove the
entries bearing the first `len - max_cache_entries + 1` keys of the
sorted list. -/
def evictOldest (config : GeolocationConfig) (cache : Cache) : Cache :=
  let entries_with_timestamps := cache.map (fun p => (p.1, p.2.timestamp))
  let sorted := entries_with_timestamps.mergeSort (fun a b => decide (a.2 ≤ b.2))
  let to_remove := cache.length - config.max_cache_entries + 1
  let removed := (sorted.take to_remove).map Prod.fst
  cache.filter (fun p => !removed.contains p.1)

/-- The `GeolocationService::cache_location` (lines 222-252): when at or over
capacity, first retain only non-expired entries; if still at or over
capacity, remove the oldest entries; finally insert the new entry with
the current instant. -/
def cache_location (config : GeolocationConfig) (now : Nat) (cache : Cache)
    (ip_address : String) (location : LocationInfo) : Cache :=
  let cache1 :=
    if config.max_cache_entries ≤ cache.length then
      let swept := evictExpired config now cache
      if config.max_cache_entries ≤ swept.length then
        evictOldest config swept
      else
        swept
    else
      cache
  cacheInsert cache1 ip_address { location := location, timestamp := now }

/-- The `GeolocationService::get_location` (lines 132-203): validate, consult
the cache, otherwise fetch from the providers and cache a successful
result.  Returns the call result together with the cache state after the
call. -/
def get_location (config : GeolocationConfig) (cache : Cache) (now : Nat)
    (ip_address : String) (p : HttpOutcome MaxMindResponse)
    (f : HttpOutcome FallbackApiResponse) :
    Except ApiError LocationInfo × Cache :=
  if trimIsEmpty ip_address then
    (.error (.BadRequest "IP address is required"), cache)
  else
    match get_from_cache config cache now ip_address with
    | some cached_location => (.ok cached_location, cache)
    | none =>
        match (fetch_from_api config p f).result with
        | .error e => (.error e, cache)
        | .ok location =>
            (.ok location, cache_location config now cache ip_address location)

/-- The `ObjectId` of the `bson` crate, as an abstract 12-byte value. -/
structure ObjectId where
  val : Nat
deriving DecidableEq, Repr

/-- The `MyObjectId` from `src/src/shared_models.rs` (line 16): a newtype over
`ObjectId`. -/
structure MyObjectId where
  oid : ObjectId
deriving DecidableEq, Repr

/-- The `MyObjectId::is_empty` (lines 35-38 of `src/src/shared_models.rs`):
compares the stored id with `ObjectId::new()`, a value freshly generated
during the call; the fresh random id is the explicit oracle parameter
`freshly_generated`. -/
def MyObjectId.is_empty (v : MyObjectId) (freshly_generated : ObjectId) : Bool :=
  v.oid == freshly_generated

/-! ## Claim theorems: provider clients and identifier helper -/

/-- C2: once the fallback provider is reached, a transport failure is a
hard error; any non-success HTTP status, and any parsed response whose
embedded `status` field is not "success", both yield the well-known
default record (country code "US", country name "United States", nothing
else) instead of an error. -/
theorem C2_fallback_failure_policy (config : GeolocationConfig) :
    (∀ e, fetch_from_fallback_service config (.transportError e) =
      .error (.InternalServerError ("Fallback geolocation API request failed: " ++ e))) ∧
    (∀ status body, isSuccessStatus status = false →
      fetch_from_fallback_service config (.response status body) = .ok default_location) ∧
    (∀ status fr, fr.status ≠ "success" →
      fetch_from_fallback_service config (.response status (.ok fr)) = .ok default_location) ∧
    default_location =
      { country_code := "US", country_name := "United States", city := none,
        region := none, latitude := none, longitude := none, timezone := none } := by
  refine ⟨fun e => rfl, fun status body h => ?_, fun status fr h => ?_, rfl⟩
  · simp [fetch_from_fallback_service, h]
  · by_cases hs : isSuccessStatus status
    · simp [fetch_from_fallback_service, hs, h]
    · simp [fetch_from_fallback_service, hs]

/-- Concrete instantiation of `C2_fallback_failure_policy`. -/
theorem C2_fallback_failure_policy_witness :
    fetch_from_fallback_service GeolocationConfig.default (.response 500 (.error "bad json")) =
      .ok default_location :=
  (C2_fallback_failure_policy GeolocationConfig.default).2.1 500 (.error "bad json") (by decide)

/-- C8: for a non-success primary (MaxMind) HTTP status, 404 yields the
default record (not an error), 401 an authentication-failure error, 429 a
rate-limit error, and every other non-success status a generic provider
error. -/
theorem C8_maxmind_status_policy (config : GeolocationConfig) (status : Nat)
    (body : Except String MaxMindResponse) (h : isSuccessStatus status = false) :
    fetch_from_maxmind config (.response status body) =
      (if status = 401 then
        .error (.InternalServerError "Geolocation service authentication failed")
      else if status = 404 then
        .ok default_location
      else if status = 429 then
        .error (.InternalServerError "Geolocation service rate limited")
      else
        .error (.InternalServerError ("Geolocation service error: " ++ toString status))) := by
  simp only [fetch_from_maxmind, h, Bool.not_false, if_true]
  split_ifs with h1 h2 h3 <;> simp_all

/-- Concrete instantiation of `C8_maxmind_status_policy` at status 404. -/
theorem C8_maxmind_status_policy_witness :
    fetch_from_maxmind GeolocationConfig.default (.response 404 (.error "not found")) =
      .ok default_location := by
  have h := C8_maxmind_status_policy GeolocationConfig.default 404 (.error "not found") (by decide)
  simpa using h

/-- The MaxMind mapping as the claim words it ("city and region from the
first available localized name in the respective name maps"), for the
refinement comparison: identical to `convert_maxmind_response` except
that city and region take the first entry of the localisation map rather
than specifically the English one. -/
def convert_maxmind_response_claim (response : MaxMindResponse) : LocationInfo :=
  let country_code := response.country.iso_code
  let country_name := (mapGet response.country.names "en").getD country_code
  let city := response.city.bind (fun c => c.names.head?.map (fun p => p.2))
  let region :=
    (response.subdivisions.bind (fun subdivisions => subdivisions.head?)).bind
      (fun subdivision => subdivision.names.head?.map (fun p => p.2))
  let llt :=
    (response.location.map (fun loc => (loc.latitude, loc.longitude, loc.time_zone))).getD
      (none, none, none)
  { country_code := country_code
    country_name := country_name
    city := city
    region := region
    latitude := llt.1
    longitude := llt.2.1
    timezone := llt.2.2 }

/-- A MaxMind response whose city name map holds a single French
localisation and no English one. -/
def maxmindResponseFrOnly : MaxMindResponse :=
  { country := { iso_code := "FR", names := [("en", "France")] }
    city := some { names := [("fr", "Paris")] }
    location := none
    subdivisions := none }

/-- C9 counterexample: on a city whose only localised name is French, the
code leaves `city` absent while the claimed "first available localized
name" mapping would produce it, so the claim as stated is false. -/
theorem C9_maxmind_mapping_counterexample :
    (convert_maxmind_response maxmindResponseFrOnly).city = none ∧
    (convert_maxmind_response_claim maxmindResponseFrOnly).city = some "Paris" ∧
    convert_maxmind_response maxmindResponseFrOnly ≠
      convert_maxmind_response_claim maxmindResponseFrOnly := by
  refine ⟨rfl, rfl, ?_⟩
  decide

/-- C9 (amended): the successfully parsed primary response is mapped with
country name preferring the English-localised name and falling back to
the ISO code; city from the English name of the city map; region from the
English name of the first subdivision's map; latitude, longitude and
timezone passed through when present and absent otherwise. -/
theorem C9_maxmind_mapping (r : MaxMindResponse) :
    convert_maxmind_response r =
      { country_code := r.country.iso_code
        country_name := (mapGet r.country.names "en").getD r.country.iso_code
        city := r.city.bind (fun c => mapGet c.names "en")
        region := (r.subdivisions.bind (fun s => s.head?)).bind
          (fun s => mapGet s.names "en")
        latitude := r.location.bind (fun l => l.latitude)
        longitude := r.location.bind (fun l => l.longitude)
        timezone := r.location.bind (fun l => l.time_zone) } := by
  cases r with
  | mk country city location subdivisions => cases location <;> rfl

/-- C10: `MyObjectId.is_empty` returns true exactly when the stored id
equals the `ObjectId` freshly generated during the call; hence it is not
a function of the identifier alone, and it is false on the all-zero
default identifier whenever the fresh id differs from it. -/
theorem C10_is_empty_fresh_comparison :
    (∀ v freshly_generated, MyObjectId.is_empty v freshly_generated = true ↔
      v.oid = freshly_generated) ∧
    (∃ v f1 f2, MyObjectId.is_empty v f1 ≠ MyObjectId.is_empty v f2) ∧
    (∀ freshly_generated, freshly_generated ≠ ⟨0⟩ →
      MyObjectId.is_empty ⟨⟨0⟩⟩ freshly_generated = false) := by
  refine ⟨fun v fresh => ?_, ⟨⟨⟨0⟩⟩, ⟨0⟩, ⟨1⟩, by decide⟩, fun fresh h => ?_⟩
  · simp [MyObjectId.is_empty]
  · simp only [MyObjectId.is_empty, beq_eq_false_iff_ne, ne_eq]
    exact fun hh => h hh.symm

/-- Concrete instantiation of `C10_is_empty_fresh_comparison`. -/
theorem C10_is_empty_fresh_comparison_witness :
    MyObjectId.is_empty ⟨⟨0⟩⟩ ⟨1⟩ = false ∧
    (MyObjectId.is_empty ⟨⟨5⟩⟩ ⟨5⟩ = true ↔ (⟨5⟩ : ObjectId) = ⟨5⟩) :=
  ⟨C10_is_empty_fresh_comparison.2.2 ⟨1⟩ (by decide),
   C10_is_empty_fresh_comparison.1 ⟨⟨5⟩⟩ ⟨5⟩⟩

/-- C6: the primary (MaxMind) client is invoked exactly when the
configured key is non-empty and neither recognised placeholder; when it
is not invoked the fallback is always called and decides the result; and
when the invoked primary fails its error is swallowed — the fallback is
called and decides the result. -/
theorem C6_primary_gating (config : GeolocationConfig)
    (p : HttpOutcome MaxMindResponse) (f : HttpOutcome FallbackApiResponse) :
    ((fetch_from_api config p f).primaryCalled = true ↔
      (config.api_key ≠ "" ∧ config.api_key ≠ "demo_key" ∧
        config.api_key ≠ "your_maxmind_api_key")) ∧
    (maxmindKeyConfigured config = false →
      (fetch_from_api config p f).primaryCalled = false ∧
      (fetch_from_api config p f).fallbackCalled = true ∧
      (fetch_from_api config p f).result = fetch_from_fallback_service config f) ∧
    (∀ e, fetch_from_maxmind config p = .error e →
      (fetch_from_api config p f).fallbackCalled = true ∧
      (fetch_from_api config p f).result = fetch_from_fallback_service config f) := by
  have hkey : maxmindKeyConfigured config = true ↔
      (config.api_key ≠ "" ∧ config.api_key ≠ "demo_key" ∧
        config.api_key ≠ "your_maxmind_api_key") := by
    simp [maxmindKeyConfigured, and_assoc]
  by_cases hk : maxmindKeyConfigured config
  · cases hp : fetch_from_maxmind config p <;>
      simp_all [fetch_from_api, hkey]
  · simp_all [fetch_from_api, hkey]

/-- Concrete instantiation of `C6_primary_gating`: with the default
(empty) key the primary is never invoked and the fallback decides. -/
theorem C6_primary_gating_witness :
    (fetch_from_api GeolocationConfig.default (.transportError "p down")
      (.transportError "f down")).primaryCalled = false ∧
    (fetch_from_api GeolocationConfig.default (.transportError "p down")
      (.transportError "f down")).result =
      fetch_from_fallback_service GeolocationConfig.default (.transportError "f down") := by
  have h := (C6_primary_gating GeolocationConfig.default (.transportError "p down")
    (.transportError "f down")).2.1 (by decide)
  exact ⟨h.1, h.2.2⟩

/-! ## Cache store lemmas -/

/-- In a cache whose keys are pairwise distinct, the entry stored under a
key is unique. -/
theorem cache_key_unique {l : Cache} (h : (l.map Prod.fst).Nodup)
    {k : String} {a b : CacheEntry} (ha : (k, a) ∈ l) (hb : (k, b) ∈ l) :
    a = b := by
  induction l with
  | nil => cases ha
  | cons p t ih =>
      simp only [List.map_cons, List.nodup_cons, List.mem_map] at h
      rcases List.mem_cons.mp ha with rfl | ha'
      · rcases List.mem_cons.mp hb with hb0 | hb'
        · exact congrArg Prod.snd hb0.symm
        · exact absurd ⟨(k, b), hb', rfl⟩ h.1
      · rcases List.mem_cons.mp hb with rfl | hb'
        · exact absurd ⟨(k, a), ha', rfl⟩ h.1
        · exact ih h.2 ha' hb'

/-- The `find?` on a distinct-key cache locates exactly the stored entry. -/
theorem cache_find?_eq_some {l : Cache} (h : (l.map Prod.fst).Nodup)
    {k : String} {a : CacheEntry} (ha : (k, a) ∈ l) :
    l.find? (fun p => p.1 == k) = some (k, a) := by
  induction l with
  | nil => cases ha
  | cons p t ih =>
      simp only [List.map_cons, List.nodup_cons, List.mem_map] at h
      rcases List.mem_cons.mp ha with rfl | ha'
      · simp [List.find?_cons]
      · have hpk : (p.1 == k) = false := by
          refine beq_eq_false_iff_ne.mpr fun hk => ?_
          exact h.1 ⟨(k, a), ha', hk.symm⟩
        simpa [List.find?_cons, hpk] using ih h.2 ha'

/-- A key absent from the cache is never found. -/
theorem cache_find?_eq_none {l : Cache} {k : String}
    (h : ∀ e : CacheEntry, (k, e) ∉ l) :
    l.find? (fun p => p.1 == k) = none := by
  refine List.find?_eq_none.mpr fun p hp => ?_
  simp only [beq_iff_eq]
  intro hk
  exact h p.2 (by simpa [← hk] using hp)

/-- C5: a cache read returns the stored record exactly when an entry for
the key exists and its age is strictly below the TTL; a stale or missing
entry is a miss.  The embedding of `get_from_cache` is a pure function of
the cache state (the source holds only a read lock), so a read never
mutates the cache. -/
theorem C5_cache_get_semantics (config : GeolocationConfig) (cache : Cache)
    (now : Nat) (ip : String) (hkeys : (cache.map Prod.fst).Nodup) :
    (∀ loc, get_from_cache config cache now ip = some loc ↔
      ∃ e : CacheEntry, (ip, e) ∈ cache ∧
        now - e.timestamp < config.cache_ttl_seconds ∧ e.location = loc) ∧
    (get_from_cache config cache now ip = none ↔
      ∀ e : CacheEntry, (ip, e) ∈ cache →
        config.cache_ttl_seconds ≤ now - e.timestamp) := by
  by_cases hmem : ∃ e : CacheEntry, (ip, e) ∈ cache
  · obtain ⟨e, he⟩ := hmem
    have hf := cache_find?_eq_some hkeys he
    by_cases hage : now - e.timestamp < config.cache_ttl_seconds
    · constructor
      · intro loc
        constructor
        · intro hsome
          refine ⟨e, he, hage, ?_⟩
          simpa [get_from_cache, hf, hage] using hsome
        · rintro ⟨e', he', _, rfl⟩
          have : e' = e := cache_key_unique hkeys he' he
          subst this
          simp [get_from_cache, hf, hage]
      · constructor
        · intro hnone
          exact absurd hnone (by simp [get_from_cache, hf, hage])
        · intro hall
          exact absurd (hall e he) (by omega)
    · constructor
      · intro loc
        constructor
        · intro hsome
          exact absurd hsome (by simp [get_from_cache, hf, hage])
        · rintro ⟨e', he', hage', rfl⟩
          have : e' = e := cache_key_unique hkeys he' he
          subst this
          exact absurd hage' hage
      · constructor
        · intro _ e' he'
          have : e' = e := cache_key_unique hkeys he' he
          subst this
          omega
        · intro _
          simp [get_from_cache, hf, hage]
  · push_neg at hmem
    have hf := cache_find?_eq_none hmem
    constructor
    · intro loc
      constructor
      · intro hsome
        exact absurd hsome (by simp [get_from_cache, hf])
      · rintro ⟨e', he', _, _⟩
        exact absurd he' (hmem e')
    · constructor
      · intro _ e' he'
        exact absurd he' (hmem e')
      · intro _
        simp [get_from_cache, hf]

/-- Concrete instantiation of `C5_cache_get_semantics`: a fresh entry is a
hit. -/
theorem C5_cache_get_semantics_witness :
    get_from_cache GeolocationConfig.default
      [("1.2.3.4", ⟨default_location, 10⟩)] 20 "1.2.3.4" = some default_location :=
  ((C5_cache_get_semantics GeolocationConfig.default
      [("1.2.3.4", ⟨default_location, 10⟩)] 20 "1.2.3.4" (by decide)).1
    default_location).mpr ⟨⟨default_location, 10⟩, by decide, by decide, rfl⟩

/-- Removing one present key from a distinct-key cache removes exactly
one entry. -/
theorem length_filter_key_ne {l : Cache} {k : String}
    (h : (l.map Prod.fst).Nodup) (hk : k ∈ l.map Prod.fst) :
    (l.filter (fun p => p.1 != k)).length + 1 = l.length := by
  induction l with
  | nil => simp at hk
  | cons p t ih =>
      simp only [List.map_cons, List.nodup_cons] at h
      rcases List.mem_cons.mp hk with hpk | hk'
      · have hp : (p.1 != k) = false := by simp [hpk]
        have hfilter : t.filter (fun q => q.1 != k) = t := by
          refine List.filter_eq_self.mpr fun q hq => ?_
          refine bne_iff_ne.mpr fun hqk => ?_
          exact h.1 (by rw [← hpk, ← hqk]; exact List.mem_map_of_mem Prod.fst hq)
        simp [List.filter_cons, hp, hfilter]
      · have hp : (p.1 != k) = true := by
          refine bne_iff_ne.mpr fun hpk => ?_
          exact h.1 (hpk ▸ hk')
        have hrec := ih h.2 hk'
        simp only [List.filter_cons, hp, if_true, List.length_cons]
        omega

/-- Removing a duplicate-free list of present keys from a distinct-key
cache removes exactly one entry per key. -/
theorem length_filter_keys_not_mem {ks : List String} {l : Cache}
    (h : (l.map Prod.fst).Nodup) (hks : ks.Nodup)
    (hsub : ∀ k ∈ ks, k ∈ l.map Prod.fst) :
    (l.filter (fun p => !ks.contains p.1)).length + ks.length = l.length := by
  induction ks generalizing l with
  | nil => simp
  | cons k ks' ih =>
      simp only [List.nodup_cons] at hks
      have hsplit : l.filter (fun p => !(k :: ks').contains p.1) =
          (l.filter (fun p => !ks'.contains p.1)).filter (fun p => p.1 != k) := by
        rw [List.filter_filter]
        refine (List.filter_congr fun p _ => ?_).symm
        simp only [List.contains_cons, Bool.not_or, bne]
      have hmkeys : ((l.filter (fun p => !ks'.contains p.1)).map Prod.fst).Nodup :=
        List.Nodup.sublist (List.Sublist.map _ (List.filter_sublist l)) h
      have hkm : k ∈ (l.filter (fun p => !ks'.contains p.1)).map Prod.fst := by
        obtain ⟨p, hp, hpk⟩ := List.mem_map.mp (hsub k (List.mem_cons_self k ks'))
        refine List.mem_map.mpr ⟨p, List.mem_filter.mpr ⟨hp, ?_⟩, hpk⟩
        rw [hpk]
        simpa using hks.1
      have hone := length_filter_key_ne hmkeys hkm
      have hrec := ih h hks.2
        (fun k' hk' => hsub k' (List.mem_cons_of_mem k hk'))
      rw [hsplit]
      simp only [List.length_cons]
      omega

/-- The keys removed by `evictOldest` form a duplicate-free sub-collection
of the cache's keys, of size exactly `len - max + 1` when the cache is
non-trivially over capacity. -/
theorem evictOldest_removed_spec {cache : Cache}
    (hkeys : (cache.map Prod.fst).Nodup) (n : Nat) :
    ((((cache.map (fun p => (p.1, p.2.timestamp))).mergeSort
        (fun a b => decide (a.2 ≤ b.2))).take n).map Prod.fst).Nodup ∧
    (∀ k ∈ (((cache.map (fun p => (p.1, p.2.timestamp))).mergeSort
        (fun a b => decide (a.2 ≤ b.2))).take n).map Prod.fst,
      k ∈ cache.map Prod.fst) ∧
    (n ≤ cache.length →
      ((((cache.map (fun p => (p.1, p.2.timestamp))).mergeSort
          (fun a b => decide (a.2 ≤ b.2))).take n).map Prod.fst).length = n) := by
  have hperm : ((cache.map (fun p => (p.1, p.2.timestamp))).mergeSort
      (fun a b => decide (a.2 ≤ b.2))).Perm (cache.map (fun p => (p.1, p.2.timestamp))) :=
    List.mergeSort_perm _ _
  have hmapfst : (cache.map (fun p => (p.1, p.2.timestamp))).map Prod.fst =
      cache.map Prod.fst := by
    rw [List.map_map]; rfl
  have hsortedkeys : (((cache.map (fun p => (p.1, p.2.timestamp))).mergeSort
      (fun a b => decide (a.2 ≤ b.2))).map Prod.fst).Nodup := by
    refine ((hperm.map Prod.fst).nodup_iff).mpr ?_
    rw [hmapfst]; exact hkeys
  refine ⟨?_, ?_, ?_⟩
  · exact List.Nodup.sublist (List.Sublist.map _ (List.take_sublist n _)) hsortedkeys
  · intro k hkmem
    obtain ⟨p, hp, hpk⟩ := List.mem_map.mp hkmem
    have hpsorted : p ∈ (cache.map (fun p => (p.1, p.2.timestamp))).mergeSort
        (fun a b => decide (a.2 ≤ b.2)) :=
      (List.take_sublist n _).mem hp
    have : p ∈ cache.map (fun p => (p.1, p.2.timestamp)) := hperm.mem_iff.mp hpsorted
    have : p.1 ∈ (cache.map (fun p => (p.1, p.2.timestamp))).map Prod.fst :=
      List.mem_map_of_mem Prod.fst this
    rw [hmapfst] at this
    exact hpk ▸ this
  · intro hn
    have hlen : ((cache.map (fun p => (p.1, p.2.timestamp))).mergeSort
        (fun a b => decide (a.2 ≤ b.2))).length = cache.length := by
      rw [hperm.length_eq, List.length_map]
    rw [List.length_map, List.length_take, hlen]
    omega

/-- The `evictOldest` on a distinct-key cache at or over a positive capacity
leaves exactly `max_cache_entries - 1` entries. -/
theorem evictOldest_length {config : GeolocationConfig} {cache : Cache}
    (hkeys : (cache.map Prod.fst).Nodup)
    (hover : config.max_cache_entries ≤ cache.length)
    (hmax : 1 ≤ config.max_cache_entries) :
    (evictOldest config cache).length = config.max_cache_entries - 1 := by
  obtain ⟨hrnodup, hrsub, hrlen⟩ :=
    evictOldest_removed_spec hkeys (cache.length - config.max_cache_entries + 1)
  have hn : cache.length - config.max_cache_entries + 1 ≤ cache.length := by omega
  have hcount := length_filter_keys_not_mem hkeys hrnodup hrsub
  rw [hrlen hn] at hcount
  simp only [evictOldest]
  omega

/-- The `evictOldest` only removes entries. -/
theorem evictOldest_sublist (config : GeolocationConfig) (cache : Cache) :
    (evictOldest config cache).Sublist cache := by
  unfold evictOldest
  exact List.filter_sublist cache

/-- The `cacheInsert` preserves distinctness of keys. -/
theorem cacheInsert_keys_nodup {cache : Cache} {ip : String} {e : CacheEntry}
    (h : (cache.map Prod.fst).Nodup) :
    ((cacheInsert cache ip e).map Prod.fst).Nodup := by
  simp only [cacheInsert, List.map_cons, List.nodup_cons]
  refine ⟨fun hmem => ?_,
    List.Nodup.sublist (List.Sublist.map _ (List.filter_sublist cache)) h⟩
  obtain ⟨p, hp, hpk⟩ := List.mem_map.mp hmem
  exact absurd hpk (bne_iff_ne.mp (List.mem_filter.mp hp).2)

/-- The `cacheInsert` grows the cache by at most the one inserted entry. -/
theorem cacheInsert_length_le (cache : Cache) (ip : String) (e : CacheEntry) :
    (cacheInsert cache ip e).length ≤ cache.length + 1 := by
  simpa [cacheInsert] using
    Nat.succ_le_succ (List.length_filter_le (fun p => p.1 != ip) cache)

/-- The default configuration with a zero entry cap. -/
def zeroCapacityConfig : GeolocationConfig :=
  { GeolocationConfig.default with max_cache_entries := 0 }

/-- C3 counterexample: with `max_cache_entries = 0` the eviction pass
makes room for the new entry and then inserts it, so the cache ends a
`cache_location` call with one entry — strictly above the configured
cap.  The claim is therefore false for every configuration. -/
theorem C3_capacity_counterexample :
    ¬ ((cache_location zeroCapacityConfig 0 [] "1.2.3.4" default_location).length ≤
        zeroCapacityConfig.max_cache_entries) := by
  simp [cache_location, zeroCapacityConfig, GeolocationConfig.default, cacheInsert,
    evictExpired, evictOldest, List.mergeSort_nil]

/-- C3 (amended): for every cache state with pairwise-distinct keys (the
hash-map representation invariant) and every configuration whose cap is
at least one, every `cache_location` call ends with at most
`max_cache_entries` entries, and key distinctness is preserved; the
embedding mutates the cache only at the single synchronous return of
`cache_location`, so no state beyond its result is ever observable. -/
theorem C3_capacity_bound (config : GeolocationConfig) (cache : Cache) (now : Nat)
    (ip : String) (location : LocationInfo)
    (hkeys : (cache.map Prod.fst).Nodup)
    (hmax : 1 ≤ config.max_cache_entries) :
    (cache_location config now cache ip location).length ≤ config.max_cache_entries ∧
    ((cache_location config now cache ip location).map Prod.fst).Nodup := by
  have hentry : CacheEntry := { location := location, timestamp := now }
  simp only [cache_location]
  by_cases h1 : config.max_cache_entries ≤ cache.length
  · simp only [h1, if_true]
    have hsweptkeys : ((evictExpired config now cache).map Prod.fst).Nodup :=
      List.Nodup.sublist (List.Sublist.map _ (by
        simp only [evictExpired]; exact List.filter_sublist cache)) hkeys
    by_cases h2 : config.max_cache_entries ≤ (evictExpired config now cache).length
    · simp only [h2, if_true]
      have hlen := evictOldest_length hsweptkeys h2 hmax
      have hnodup : ((evictOldest config (evictExpired config now cache)).map
          Prod.fst).Nodup :=
        List.Nodup.sublist (List.Sublist.map _ (evictOldest_sublist _ _)) hsweptkeys
      refine ⟨?_, cacheInsert_keys_nodup hnodup⟩
      have := cacheInsert_length_le (evictOldest config (evictExpired config now cache))
        ip { location := location, timestamp := now }
      omega
    · simp only [h2, if_false]
      refine ⟨?_, cacheInsert_keys_nodup hsweptkeys⟩
      have := cacheInsert_length_le (evictExpired config now cache) ip
        { location := location, timestamp := now }
      omega
  · simp only [h1, if_false]
    refine ⟨?_, cacheInsert_keys_nodup hkeys⟩
    have := cacheInsert_length_le cache ip { location := location, timestamp := now }
    omega

/-- Concrete instantiation of `C3_capacity_bound`: inserting a fourth
distinct key into a full three-entry cache with cap three keeps the size
at most three. -/
theorem C3_capacity_bound_witness :
    (cache_location
        { GeolocationConfig.default with max_cache_entries := 3 } 150
        [("1.1.1.1", ⟨default_location, 10⟩), ("2.2.2.2", ⟨default_location, 60⟩),
          ("3.3.3.3", ⟨default_location, 140⟩)]
        "4.4.4.4" default_location).length ≤ 3 :=
  (C3_capacity_bound { GeolocationConfig.default with max_cache_entries := 3 }
    [("1.1.1.1", ⟨default_location, 10⟩), ("2.2.2.2", ⟨default_location, 60⟩),
      ("3.3.3.3", ⟨default_location, 140⟩)]
    150 "4.4.4.4" default_location (by decide) (by decide)).1

/-- In a list sorted by the second (timestamp) component with
pairwise-distinct timestamps, an element lies among the first `n` exactly
when fewer than `n` elements carry a strictly smaller timestamp. -/
theorem mem_take_sorted_iff {s : List (String × Nat)}
    (hsort : s.Pairwise (fun a b => a.2 ≤ b.2))
    (hts : (s.map Prod.snd).Nodup) {x : String × Nat} (hx : x ∈ s) :
    ∀ n, (x ∈ s.take n ↔ (s.filter (fun y => decide (y.2 < x.2))).length < n) := by
  induction s with
  | nil => cases hx
  | cons a t ih =>
      intro n
      rw [List.pairwise_cons] at hsort
      simp only [List.map_cons, List.nodup_cons] at hts
      cases n with
      | zero => simp
      | succ n =>
          rcases List.mem_cons.mp hx with rfl | hx'
          · have hfilter : (x :: t).filter (fun y => decide (y.2 < x.2)) = [] := by
              refine List.filter_eq_nil_iff.mpr fun y hy => ?_
              rcases List.mem_cons.mp hy with rfl | hy'
              · simp
              · have h1 : x.2 ≤ y.2 := hsort.1 y hy'
                have h2 : x.2 ≠ y.2 := fun h =>
                  hts.1 (h ▸ List.mem_map_of_mem Prod.snd hy')
                simp only [decide_eq_true_eq]
                omega
            rw [hfilter, List.take_succ_cons]
            simp
          · have hxa : x ≠ a := fun h => hts.1 (by
              rw [← h]; exact List.mem_map_of_mem Prod.snd hx')
            have h1 : a.2 ≤ x.2 := hsort.1 x hx'
            have h2 : a.2 ≠ x.2 := fun h => hts.1 (by
              rw [h]; exact List.mem_map_of_mem Prod.snd hx')
            have hlt : a.2 < x.2 := by omega
            have hfilter : (a :: t).filter (fun y => decide (y.2 < x.2)) =
                a :: t.filter (fun y => decide (y.2 < x.2)) := by
              simp [List.filter_cons, hlt]
            rw [hfilter, List.take_succ_cons]
            simp only [List.mem_cons, List.length_cons]
            constructor
            · rintro (rfl | hmem)
              · exact absurd rfl hxa
              · have := (ih hsort.2 hts.2 hx' n).mp hmem
                omega
            · intro hcount
              exact Or.inr ((ih hsort.2 hts.2 hx' n).mpr (by omega))

/-- Key membership after `cacheInsert`, for a key other than the inserted
one, is key membership before the insert. -/
theorem mem_keys_cacheInsert {cache : Cache} {ip k : String} {e : CacheEntry}
    (hne : k ≠ ip) :
    (k ∈ (cacheInsert cache ip e).map Prod.fst ↔ k ∈ cache.map Prod.fst) := by
  simp only [cacheInsert, List.map_cons, List.mem_cons]
  constructor
  · rintro (rfl | hmem)
    · exact absurd rfl hne
    · obtain ⟨p, hp, hpk⟩ := List.mem_map.mp hmem
      exact List.mem_map.mpr ⟨p, (List.mem_filter.mp hp).1, hpk⟩
  · intro hmem
    obtain ⟨p, hp, hpk⟩ := List.mem_map.mp hmem
    refine Or.inr (List.mem_map.mpr ⟨p, List.mem_filter.mpr ⟨hp, ?_⟩, hpk⟩)
    exact bne_iff_ne.mpr (by rw [hpk]; exact hne)

/-- Key membership in a filtered distinct-key cache is the filter
predicate's verdict on the unique entry stored under the key. -/
theorem mem_keys_filter_iff {cache : Cache} (hkeys : (cache.map Prod.fst).Nodup)
    {k : String} {e : CacheEntry} (he : (k, e) ∈ cache)
    (P : String × CacheEntry → Bool) :
    (k ∈ (cache.filter P).map Prod.fst ↔ P (k, e) = true) := by
  constructor
  · intro hmem
    obtain ⟨p, hp, hpk⟩ := List.mem_map.mp hmem
    obtain ⟨hpc, hPp⟩ := List.mem_filter.mp hp
    obtain ⟨k', e'⟩ := p
    simp only at hpk
    subst hpk
    have : e' = e := cache_key_unique hkeys hpc he
    subst this
    exact hPp
  · intro hP
    exact List.mem_map.mpr ⟨(k, e), List.mem_filter.mpr ⟨he, hP⟩, rfl⟩

/-- An entry survives the retain sweep exactly when its age is strictly
below the TTL. -/
theorem mem_keys_evictExpired_iff {config : GeolocationConfig} {now : Nat}
    {cache : Cache} (hkeys : (cache.map Prod.fst).Nodup)
    {k : String} {e : CacheEntry} (he : (k, e) ∈ cache) :
    (k ∈ (evictExpired config now cache).map Prod.fst ↔
      now - e.timestamp < config.cache_ttl_seconds) := by
  simp only [evictExpired]
  rw [mem_keys_filter_iff hkeys he]
  simp

/-- An entry of a distinct-key, distinct-timestamp cache survives
`evictOldest` exactly when at least `len - max_cache_entries + 1` entries
are strictly older than it. -/
theorem mem_keys_evictOldest_iff {config : GeolocationConfig} {cache : Cache}
    (hkeys : (cache.map Prod.fst).Nodup)
    (hts : (cache.map (fun p => p.2.timestamp)).Nodup)
    {k : String} {e : CacheEntry} (he : (k, e) ∈ cache) :
    (k ∈ (evictOldest config cache).map Prod.fst ↔
      cache.length - config.max_cache_entries + 1 ≤
        (cache.filter (fun p => decide (p.2.timestamp < e.timestamp))).length) := by
  have hperm : ((cache.map (fun p => (p.1, p.2.timestamp))).mergeSort
      (fun a b => decide (a.2 ≤ b.2))).Perm (cache.map (fun p => (p.1, p.2.timestamp))) :=
    List.mergeSort_perm _ _
  have hsort : ((cache.map (fun p => (p.1, p.2.timestamp))).mergeSort
      (fun a b => decide (a.2 ≤ b.2))).Pairwise (fun a b => a.2 ≤ b.2) := by
    refine List.Pairwise.imp (fun h => of_decide_eq_true h) ?_
    exact @List.sorted_mergeSort (String × Nat) (fun a b => decide (a.2 ≤ b.2))
      (fun a b c hab hbc =>
        decide_eq_true (Nat.le_trans (of_decide_eq_true hab) (of_decide_eq_true hbc)))
      (fun a b => by
        rcases Nat.le_total a.2 b.2 with h | h <;> simp [h])
      (cache.map (fun p => (p.1, p.2.timestamp)))
  have hmapsnd : (cache.map (fun p => (p.1, p.2.timestamp))).map Prod.snd =
      cache.map (fun p => p.2.timestamp) := by
    rw [List.map_map]; rfl
  have htssorted : (((cache.map (fun p => (p.1, p.2.timestamp))).mergeSort
      (fun a b => decide (a.2 ≤ b.2))).map Prod.snd).Nodup := by
    refine ((hperm.map Prod.snd).nodup_iff).mpr ?_
    rw [hmapsnd]; exact hts
  have hxmem : ((k, e.timestamp) : String × Nat) ∈
      (cache.map (fun p => (p.1, p.2.timestamp))).mergeSort
        (fun a b => decide (a.2 ≤ b.2)) :=
    hperm.mem_iff.mpr (List.mem_map.mpr ⟨(k, e), he, rfl⟩)
  have htake := mem_take_sorted_iff hsort htssorted hxmem
    (cache.length - config.max_cache_entries + 1)
  have hfiltereq : (((cache.map (fun p => (p.1, p.2.timestamp))).mergeSort
      (fun a b => decide (a.2 ≤ b.2))).filter
        (fun y => decide (y.2 < e.timestamp))).length =
      (cache.filter (fun p => decide (p.2.timestamp < e.timestamp))).length := by
    rw [(hperm.filter _).length_eq]
    rw [List.filter_map]
    rw [List.length_map]
    rfl
  have htake2 : (((k, e.timestamp) : String × Nat) ∈
      ((cache.map (fun p => (p.1, p.2.timestamp))).mergeSort
        (fun a b => decide (a.2 ≤ b.2))).take
        (cache.length - config.max_cache_entries + 1)) ↔
      (cache.filter (fun p => decide (p.2.timestamp < e.timestamp))).length <
        cache.length - config.max_cache_entries + 1 := by
    rw [← hfiltereq]
    simpa using htake
  have hcontains : ((((cache.map (fun p => (p.1, p.2.timestamp))).mergeSort
      (fun a b => decide (a.2 ≤ b.2))).take
        (cache.length - config.max_cache_entries + 1)).map Prod.fst).contains k = true ↔
      (((k, e.timestamp) : String × Nat) ∈
        ((cache.map (fun p => (p.1, p.2.timestamp))).mergeSort
          (fun a b => decide (a.2 ≤ b.2))).take
          (cache.length - config.max_cache_entries + 1)) := by
    constructor
    · intro hc
      have hk : k ∈ (((cache.map (fun p => (p.1, p.2.timestamp))).mergeSort
          (fun a b => decide (a.2 ≤ b.2))).take
            (cache.length - config.max_cache_entries + 1)).map Prod.fst := by
        simpa using hc
      obtain ⟨pair, hpair, hpairk⟩ := List.mem_map.mp hk
      have hpairsorted := (List.take_sublist _ _).mem hpair
      have hpaircache : pair ∈ cache.map (fun p => (p.1, p.2.timestamp)) :=
        hperm.mem_iff.mp hpairsorted
      obtain ⟨q, hq, hqpair⟩ := List.mem_map.mp hpaircache
      have hqk : q.1 = k := by rw [← hpairk, ← hqpair]
      have hq2 : q.2 = e := by
        refine cache_key_unique hkeys ?_ he
        rw [← hqk]
        simpa using hq
      have hpaireq : pair = ((k, e.timestamp) : String × Nat) := by
        rw [← hqpair, hqk, hq2]
      rw [← hpaireq]
      exact hpair
    · intro hm
      simpa using List.mem_map_of_mem Prod.fst hm
  simp only [evictOldest]
  rw [mem_keys_filter_iff hkeys he]
  constructor
  · intro hP
    by_contra hlt
    push_neg at hlt
    have hm := htake2.mpr hlt
    have hc := hcontains.mpr hm
    rw [hc] at hP
    cases hP
  · intro hcount
    have hcfalse : ((((cache.map (fun p => (p.1, p.2.timestamp))).mergeSort
        (fun a b => decide (a.2 ≤ b.2))).take
          (cache.length - config.max_cache_entries + 1)).map Prod.fst).contains k =
        false := by
      refine Bool.eq_false_iff.mpr fun hc => ?_
      have := htake2.mp (hcontains.mp hc)
      omega
    show (!((((cache.map (fun p => (p.1, p.2.timestamp))).mergeSort
        (fun a b => decide (a.2 ≤ b.2))).take
          (cache.length - config.max_cache_entries + 1)).map Prod.fst).contains k) = true
    rw [hcfalse]
    rfl

/-- C4: on a put that begins at or over capacity, eviction proceeds in
exactly two steps before the new entry is inserted.  For distinct keys
and distinct insertion timestamps, an old entry (other than the one
being written) survives the call exactly when (1) its age is strictly
below the TTL — the sweep removes every expired entry — and (2) if the
sweep left the store still at or over capacity, at least
`size - maxEntries + 1` surviving entries are strictly older than it —
precisely the oldest `N = size - maxEntries + 1` post-sweep entries are
removed and every newer entry survives.  The new entry itself is always
present afterwards. -/
theorem C4_eviction_policy (config : GeolocationConfig) (cache : Cache) (now : Nat)
    (ip : String) (location : LocationInfo)
    (hkeys : (cache.map Prod.fst).Nodup)
    (hts : (cache.map (fun p => p.2.timestamp)).Nodup)
    (hover : config.max_cache_entries ≤ cache.length) :
    ((ip, ⟨location, now⟩) ∈ cache_location config now cache ip location) ∧
    (∀ k e, (k, e) ∈ cache → k ≠ ip →
      (k ∈ (cache_location config now cache ip location).map Prod.fst ↔
        (now - e.timestamp < config.cache_ttl_seconds ∧
          (config.max_cache_entries ≤ (evictExpired config now cache).length →
            (evictExpired config now cache).length - config.max_cache_entries + 1 ≤
              ((evictExpired config now cache).filter
                (fun p => decide (p.2.timestamp < e.timestamp))).length)))) := by
  constructor
  · simp only [cache_location, cacheInsert]
    exact List.mem_cons_self _ _
  · intro k e he hne
    have hsweptkeys : ((evictExpired config now cache).map Prod.fst).Nodup :=
      List.Nodup.sublist (List.Sublist.map _ (by
        simp only [evictExpired]; exact List.filter_sublist cache)) hkeys
    have hsweptts : ((evictExpired config now cache).map
        (fun p => p.2.timestamp)).Nodup :=
      List.Nodup.sublist (List.Sublist.map _ (by
        simp only [evictExpired]; exact List.filter_sublist cache)) hts
    have hstep1 : (k ∈ (cache_location config now cache ip location).map Prod.fst ↔
        k ∈ (if config.max_cache_entries ≤ (evictExpired config now cache).length
             then evictOldest config (evictExpired config now cache)
             else evictExpired config now cache).map Prod.fst) := by
      simp only [cache_location, hover, if_true]
      exact mem_keys_cacheInsert hne
    rw [hstep1]
    by_cases h2 : config.max_cache_entries ≤ (evictExpired config now cache).length
    · simp only [h2, if_true]
      by_cases hfresh : now - e.timestamp < config.cache_ttl_seconds
      · have hesw : (k, e) ∈ evictExpired config now cache := by
          simp only [evictExpired, List.mem_filter]
          exact ⟨he, by simpa using hfresh⟩
        rw [mem_keys_evictOldest_iff hsweptkeys hsweptts hesw]
        constructor
        · intro hcount
          exact ⟨hfresh, fun _ => hcount⟩
        · intro hrhs
          exact hrhs.2 trivial
      · constructor
        · intro hmem
          have hk : k ∈ (evictExpired config now cache).map Prod.fst :=
            List.Sublist.mem hmem (List.Sublist.map _ (evictOldest_sublist _ _))
          rw [mem_keys_evictExpired_iff hkeys he] at hk
          exact absurd hk hfresh
        · intro hrhs
          exact absurd hrhs.1 hfresh
    · simp only [h2, if_false]
      rw [mem_keys_evictExpired_iff hkeys he]
      constructor
      · intro hfresh
        exact ⟨hfresh, fun hc => hc.elim⟩
      · intro hrhs
        exact hrhs.1

/-- Concrete instantiation of `C4_eviction_policy`: in a full cache of
three entries with cap two, the expired entry is swept, the oldest fresh
entry is evicted, and the newest fresh entry survives the insertion of a
fourth key. -/
theorem C4_eviction_policy_witness :
    "3.3.3.3" ∈ (cache_location
        { GeolocationConfig.default with cache_ttl_seconds := 100, max_cache_entries := 2 }
        150
        [("1.1.1.1", ⟨default_location, 10⟩), ("2.2.2.2", ⟨default_location, 60⟩),
          ("3.3.3.3", ⟨default_location, 140⟩)]
        "4.4.4.4" default_location).map Prod.fst :=
  ((C4_eviction_policy
      { GeolocationConfig.default with cache_ttl_seconds := 100, max_cache_entries := 2 }
      [("1.1.1.1", ⟨default_location, 10⟩), ("2.2.2.2", ⟨default_location, 60⟩),
        ("3.3.3.3", ⟨default_location, 140⟩)]
      150 "4.4.4.4" default_location (by decide) (by decide) (by decide)).2
    "3.3.3.3" ⟨default_location, 140⟩ (by decide) (by decide)).mpr
    (by refine ⟨by decide, fun _ => by decide⟩)

/-! ## Resolver theorems -/

/-- C1 counterexample: for the non-empty IP "1.2.3.4", an empty cache and
a fallback transport failure, `get_location` surfaces a provider-side
`InternalServerError` — so once validation passes the call does not
always return a record, refuting the claim. -/
theorem C1_resolver_counterexample :
    trimIsEmpty "1.2.3.4" = false ∧
    (get_location GeolocationConfig.default [] 0 "1.2.3.4"
        (.transportError "primary down") (.transportError "fallback down")).1 =
      .error (.InternalServerError
        "Fallback geolocation API request failed: fallback down") := by
  exact ⟨rfl, rfl⟩

/-- C1 (amended): `get_location` fails with the `BadRequest` validation
error exactly on empty/whitespace-only input; for a non-empty input it
fails exactly when the lookup is not served from the cache, the primary
path produces no record, and the fallback call itself hard-fails — its
transport errors, or its success-status body fails to parse.  A
non-success fallback HTTP status is never surfaced, and no primary-side
failure ever is: every surfaced error of a validated call is the
fallback's own. -/
theorem C1_resolver_error_policy (config : GeolocationConfig) (cache : Cache)
    (now : Nat) (ip : String) (p : HttpOutcome MaxMindResponse)
    (f : HttpOutcome FallbackApiResponse) :
    (trimIsEmpty ip = true →
      (get_location config cache now ip p f).1 =
        .error (.BadRequest "IP address is required")) ∧
    (trimIsEmpty ip = false →
      ∀ e, ((get_location config cache now ip p f).1 = .error e ↔
        (get_from_cache config cache now ip = none ∧
          (maxmindKeyConfigured config = true →
            ∀ loc, fetch_from_maxmind config p ≠ .ok loc) ∧
          fetch_from_fallback_service config f = .error e))) ∧
    (∀ e, (fetch_from_fallback_service config f = .error e ↔
      ((∃ m, f = .transportError m ∧
          e = .InternalServerError ("Fallback geolocation API request failed: " ++ m)) ∨
        (∃ status m, f = .response status (.error m) ∧ isSuccessStatus status = true ∧
          e = .InternalServerError
            ("Failed to parse fallback geolocation response: " ++ m))))) := by
  refine ⟨fun hempty => by simp [get_location, hempty], fun hne e => ?_, fun e => ?_⟩
  · cases hc : get_from_cache config cache now ip with
    | some cached => simp [get_location, hne, hc]
    | none =>
        simp only [get_location, hne, Bool.false_eq_true, if_false, hc]
        by_cases hk : maxmindKeyConfigured config
        · cases hm : fetch_from_maxmind config p with
          | ok lm => simp [fetch_from_api, hk, hm]
          | error em =>
              cases hf : fetch_from_fallback_service config f with
              | ok lf => simp [fetch_from_api, hk, hm, hf]
              | error ef =>
                  simp only [fetch_from_api, hk, if_true, hm, hf]
                  constructor
                  · intro hok
                    exact ⟨trivial, fun _ loc hloc => Except.noConfusion hloc, hok⟩
                  · intro h
                    exact h.2.2
        · cases hf : fetch_from_fallback_service config f with
          | ok lf => simp [fetch_from_api, hk, hf]
          | error ef => simp [fetch_from_api, hk, hf]
  · cases f with
    | transportError m =>
        simp only [fetch_from_fallback_service]
        constructor
        · intro h
          exact Or.inl ⟨m, rfl, by simpa using h.symm⟩
        · rintro (⟨m', hm', rfl⟩ | ⟨status, m', hm', _, _⟩)
          · injection hm' with h1
            rw [h1]
          · cases hm'
    | response status body =>
        by_cases hs : isSuccessStatus status
        · cases body with
          | error m =>
              simp only [fetch_from_fallback_service, hs, Bool.not_true,
                Bool.false_eq_true, if_false]
              constructor
              · intro h
                exact Or.inr ⟨status, m, rfl, hs, by simpa using h.symm⟩
              · rintro (⟨m', hm', _⟩ | ⟨status', m', hm', _, rfl⟩)
                · cases hm'
                · injection hm' with h1 h2
                  injection h2 with h3
                  simp [h3]
          | ok fr =>
              simp only [fetch_from_fallback_service, hs, Bool.not_true,
                Bool.false_eq_true, if_false]
              constructor
              · intro h
                split at h <;> simp at h
              · rintro (⟨m', hm', _⟩ | ⟨status', m', hm', _, _⟩)
                · cases hm'
                · injection hm' with h1 h2
                  injection h2
        · have hs' : isSuccessStatus status = false := Bool.eq_false_iff.mpr hs
          simp only [fetch_from_fallback_service, hs', Bool.not_false, if_true]
          constructor
          · intro h
            simp at h
          · rintro (⟨m', hm', _⟩ | ⟨status', m', hm', hssuc, _⟩)
            · cases hm'
            · injection hm' with h1 h2
              rw [h1] at hs'
              rw [hssuc] at hs'
              cases hs'

/-- Concrete instantiation of `C1_resolver_error_policy`: a
whitespace-only IP is rejected with the validation error. -/
theorem C1_resolver_error_policy_witness :
    (get_location GeolocationConfig.default [] 0 "   "
        (.transportError "p") (.transportError "q")).1 =
      .error (.BadRequest "IP address is required") :=
  (C1_resolver_error_policy GeolocationConfig.default [] 0 "   "
    (.transportError "p") (.transportError "q")).1 (by decide)

/-- C7: every record returned by `get_location` for a valid (non-empty)
IP carries a non-empty country code, on every path — cache hit, primary
success, primary 404 default, fallback success and fallback degraded
default — provided the cached records and the providers' successfully
parsed responses carry non-empty country codes, as their documented
schemas require. -/
theorem C7_country_code_nonempty (config : GeolocationConfig) (cache : Cache)
    (now : Nat) (ip : String) (p : HttpOutcome MaxMindResponse)
    (f : HttpOutcome FallbackApiResponse) (loc : LocationInfo)
    (hcache : ∀ k e, (k, e) ∈ cache → e.location.country_code ≠ "")
    (hp : ∀ status r, p = .response status (.ok r) → r.country.iso_code ≠ "")
    (hf : ∀ status r, f = .response status (.ok r) → r.country_code ≠ "")
    (hok : (get_location config cache now ip p f).1 = .ok loc) :
    loc.country_code ≠ "" := by
  have hmax : ∀ l, fetch_from_maxmind config p = .ok l → l.country_code ≠ "" := by
    intro l hl
    cases p with
    | transportError m => simp [fetch_from_maxmind] at hl
    | response status body =>
        by_cases hs : isSuccessStatus status
        · cases body with
          | error m => simp [fetch_from_maxmind, hs] at hl
          | ok r =>
              simp [fetch_from_maxmind, hs] at hl
              rw [← hl]
              have := hp status r rfl
              simpa [convert_maxmind_response] using this
        · have hs' : isSuccessStatus status = false := Bool.eq_false_iff.mpr hs
          by_cases h401 : status == 401
          · simp [fetch_from_maxmind, hs', h401] at hl
          · by_cases h404 : status == 404
            · simp [fetch_from_maxmind, hs', h401, h404] at hl
              rw [← hl]
              decide
            · by_cases h429 : status == 429
              · simp [fetch_from_maxmind, hs', h401, h404, h429] at hl
              · simp [fetch_from_maxmind, hs', h401, h404, h429] at hl
  have hfall : ∀ l, fetch_from_fallback_service config f = .ok l →
      l.country_code ≠ "" := by
    intro l hl
    cases f with
    | transportError m => simp [fetch_from_fallback_service] at hl
    | response status body =>
        by_cases hs : isSuccessStatus status
        · cases body with
          | error m => simp [fetch_from_fallback_service, hs] at hl
          | ok fr =>
              by_cases hst : fr.status == "success"
              · have hst' : fr.status = "success" := by simpa using hst
                simp [fetch_from_fallback_service, hs, hst'] at hl
                rw [← hl]
                exact hf status fr rfl
              · have hst' : ¬ fr.status = "success" := by simpa using hst
                simp [fetch_from_fallback_service, hs, hst'] at hl
                rw [← hl]
                decide
        · have hs' : isSuccessStatus status = false := Bool.eq_false_iff.mpr hs
          simp [fetch_from_fallback_service, hs'] at hl
          rw [← hl]
          decide
  by_cases hval : trimIsEmpty ip
  · simp [get_location, hval] at hok
  · have hval' : trimIsEmpty ip = false := Bool.eq_false_iff.mpr hval
    cases hc : get_from_cache config cache now ip with
    | some cached =>
        have hloc : cached = loc := by
          simp [get_location, hval', hc] at hok
          exact hok
        rw [← hloc]
        cases hfind : cache.find? (fun q => q.1 == ip) with
        | none => simp [get_from_cache, hfind] at hc
        | some pr =>
            obtain ⟨a, entry⟩ := pr
            have hmem := List.mem_of_find?_eq_some hfind
            have hcc := hcache a entry hmem
            by_cases hage : now - entry.timestamp < config.cache_ttl_seconds
            · simp [get_from_cache, hfind, hage] at hc
              rw [← hc]
              exact hcc
            · simp [get_from_cache, hfind, hage] at hc
    | none =>
        cases hr : (fetch_from_api config p f).result with
        | error e => simp [get_location, hval', hc, hr] at hok
        | ok l =>
            have hl : l = loc := by
              simp [get_location, hval', hc, hr] at hok
              exact hok
            rw [← hl]
            by_cases hk : maxmindKeyConfigured config
            · cases hm : fetch_from_maxmind config p with
              | ok lm =>
                  have hres : (fetch_from_api config p f).result = .ok lm := by
                    simp [fetch_from_api, hk, hm]
                  rw [hr] at hres
                  injection hres with h2
                  rw [h2]
                  exact hmax lm hm
              | error em =>
                  have hres : (fetch_from_api config p f).result =
                      fetch_from_fallback_service config f := by
                    simp [fetch_from_api, hk, hm]
                  rw [hr] at hres
                  exact hfall l hres.symm
            · have hres : (fetch_from_api config p f).result =
                  fetch_from_fallback_service config f := by
                simp [fetch_from_api, hk]
              rw [hr] at hres
              exact hfall l hres.symm

/-- Concrete instantiation of `C7_country_code_nonempty` on the fallback
degraded path. -/
theorem C7_country_code_nonempty_witness :
    default_location.country_code ≠ "" :=
  C7_country_code_nonempty GeolocationConfig.default [] 0 "8.8.8.8"
    (.transportError "down") (.response 500 (.error "boom")) default_location
    (fun k e h => absurd h (List.not_mem_nil (k, e)))
    (fun s r h => HttpOutcome.noConfusion h)
    (fun s r h => by injection h with h1 h2; exact Except.noConfusion h2)
    rfl
